import Mathlib

/-!
Verification of the Kubric sequence loader (`kubric/dataset.py`).

The embedding models the numeric pipeline over exact rationals `ℚ`.
Depth frames store real sensor values (finite reals); the only source of a
non-finite value in this pipeline is the grid interpolator's out-of-range
fill value, which the source comments call out explicitly ("This may return
NaNs if the target points are off camera").  Resolved depths are therefore
modelled by `FVal`, a rational extended with a `nan` sentinel.
-/

set_option autoImplicit false

/-- A floating-point sample value: either a finite (rational) number or the
not-a-number sentinel produced by out-of-range interpolation. -/
inductive FVal where
  | fin (q : ℚ)
  | nan
  deriving DecidableEq, Repr

namespace FVal

/-- `np.isfinite` on a resolved sample. -/
def isFinite : FVal → Bool
  | fin _ => true
  | nan => false

end FVal

/-- `np.round` on an exact rational: round to the nearest integer, ties to
the nearest even integer (IEEE round-half-to-even, numpy's behaviour). -/
def roundHalfEven (q : ℚ) : ℤ :=
  let f := Rat.floor q
  let r := q - f
  if r < 1 / 2 then f
  else if 1 / 2 < r then f + 1
  else if f % 2 = 0 then f else f + 1

/-- A 2-D numpy array of query coordinates, shape `(n, cols)`;
`data k j` is entry `(k, j)`. -/
structure QueryArr where
  n : Nat
  cols : Nat
  data : Nat → Nat → ℚ

/-- A depth image of shape `(H, W, C)`; `data i j c` is the value at row
`i`, column `j`, channel `c`. -/
structure DepthImg where
  H : Nat
  W : Nat
  C : Nat
  data : Nat → Nat → Nat → ℚ

/-- `scipy.interpolate.RegularGridInterpolator` over the integer grid
`(arange H, arange W)` with values `g`, default method `"linear"`,
`bounds_error=False` and the default `fill_value=nan`: queries outside
`[0, H-1] × [0, W-1]` yield `nan`; in-bounds queries are bilinearly
interpolated from the surrounding grid cell (the cell index is the floor
of the coordinate, clipped to the last cell so that the upper boundary is
still in bounds). -/
def gridInterpLinear (H W : Nat) (g : Nat → Nat → ℚ) (u v : ℚ) : FVal :=
  if u < 0 ∨ (H : ℚ) - 1 < u ∨ v < 0 ∨ (W : ℚ) - 1 < v then FVal.nan
  else
    let i : Nat := min (Rat.floor u).toNat (H - 2)
    let j : Nat := min (Rat.floor v).toNat (W - 2)
    let t : ℚ := u - i
    let s : ℚ := v - j
    FVal.fin ((1 - t) * (1 - s) * g i j + (1 - t) * s * g i (j + 1)
      + t * (1 - s) * g (i + 1) j + t * s * g (i + 1) (j + 1))

/-- `KubricSequence._image_space_to_depth`: validate shapes, build the grid
interpolator over the depth frame's single channel, in `"nearest"` mode
round the query coordinates first, then evaluate the interpolator at
`(y_query, x_query)` for each query row.  Shape violations are the
`assert` failures of the source, returned as `Except.error` with the
source's message. -/
def image_space_to_depth (image_space_positions : QueryArr)
    (depth_entries : DepthImg)
    (interpolation_type : String := "nearest") : Except String (List FVal) :=
  if image_space_positions.cols ≠ 2 then
    .error ("image_space_positions must have shape (N, 2), got ("
      ++ toString image_space_positions.n ++ ", "
      ++ toString image_space_positions.cols ++ ")")
  else if depth_entries.C ≠ 1 then
    .error ("depth_image must have shape (H, W, 1), got ("
      ++ toString depth_entries.H ++ ", " ++ toString depth_entries.W
      ++ ", " ++ toString depth_entries.C ++ ")")
  else
    let g : Nat → Nat → ℚ := fun i j => depth_entries.data i j 0
    .ok ((List.range image_space_positions.n).map (fun k =>
      let x_query : ℚ := image_space_positions.data k 0
      let y_query : ℚ := image_space_positions.data k 1
      let x_query : ℚ :=
        if interpolation_type = "nearest" then (roundHalfEven x_query : ℚ)
        else x_query
      let y_query : ℚ :=
        if interpolation_type = "nearest" then (roundHalfEven y_query : ℚ)
        else y_query
      gridInterpLinear depth_entries.H depth_entries.W g y_query x_query))

/-- A 3-D point. -/
abbrev V3 : Type := ℚ × ℚ × ℚ

/-- Camera intrinsics record `{fx, fy, cx, cy}` returned by
`KubricSequence.intrinsics` (a Python dict in the source). -/
structure Intrinsics where
  fx : ℚ
  fy : ℚ
  cx : ℚ
  cy : ℚ

/-- Modelled from the spec: the pose type of the external `datastructures`
module (not among the repository sources).  "Pose collaborator: constructed
from 7 scalars in fixed order — rotation (w, x, y, z quaternion components)
then translation (x, y, z)." -/
structure SE3 where
  qw : ℚ
  qx : ℚ
  qy : ℚ
  qz : ℚ
  tx : ℚ
  ty : ℚ
  tz : ℚ

/-- Modelled from the spec: `SE3.from_rot_w_x_y_z_translation_x_y_z`, the
pose constructor consuming rotation then translation scalars in order. -/
def SE3.from_rot_w_x_y_z_translation_x_y_z (w x y z tx ty tz : ℚ) : SE3 :=
  ⟨w, x, y, z, tx, ty, tz⟩

/-- A point-cloud value of the external `datastructures` module: a list of
3-D camera-space points (`.points` in the source). -/
structure PointCloud where
  points : List V3

/-- The finite value of a resolved sample; the sole caller asserts
finiteness before the value is consumed, so the `nan` case is unreachable
there and is mapped to `0`. -/
def FVal.toRat : FVal → ℚ
  | fin q => q
  | nan => 0

/-- Modelled from the spec: pinhole unprojection of one pixel, "each
pixel's (x, y, depth) converted to (X, Y, Z) using `fx, fy, cx, cy`". -/
def unproject (intrinsics : Intrinsics) (x y d : ℚ) : V3 :=
  ((x - intrinsics.cx) * d / intrinsics.fx,
   (y - intrinsics.cy) * d / intrinsics.fy, d)

/-- Modelled from the spec: `PointCloud.from_field_of_view_depth_image` —
"from a full field-of-view depth image + intrinsics → dense cloud", one
3-D point per depth-map pixel via standard pinhole unprojection. -/
def PointCloud.from_field_of_view_depth_image (H W : Nat)
    (g : Nat → Nat → ℚ) (intrinsics : Intrinsics) : PointCloud :=
  ⟨(List.range H).flatMap (fun (i : Nat) =>
    (List.range W).map (fun (j : Nat) =>
      unproject intrinsics (j : ℚ) (i : ℚ) (g i j)))⟩

/-- Modelled from the spec: `PointCloud.from_field_of_view_points_and_depth`
— "from sparse 2-D coordinates + their resolved depths + image shape +
intrinsics → sparse 3-D point set", by the same unprojection formula.  The
image-shape argument is carried by the source call but unused by the
unprojection. -/
def PointCloud.from_field_of_view_points_and_depth
    (points : List (ℚ × ℚ)) (depths : List FVal) (shape : Nat × Nat)
    (intrinsics : Intrinsics) : PointCloud :=
  let _ := shape
  ⟨List.zipWith (fun p d => unproject intrinsics p.1 p.2 d.toRat)
    points depths⟩

/-- The particle-frame value of the external `datastructures` module:
"constructed from a 3-D position array + a parallel occlusion-flag
array". -/
structure ParticleFrame where
  points : List V3
  occluded : List Bool

/-- An RGB frame, passed through `__getitem__` untouched. -/
structure RGBImg where
  data : Nat → Nat → Nat → ℚ

/-- The loaded pickle bundle backing a `KubricSequence`: the fields of
`self.data` the source reads, flattened.  Per-frame arrays are total
functions indexed by frame number; the data-model invariant that all
per-frame arrays share one frame count (`metadata.num_frames`) and that
`target_points`/`occluded` share one particle count is expressed by the
single `num_frames` / `num_particles` dimensions. -/
structure KubricSequence where
  num_frames : Nat
  num_particles : Nat
  focal_length : ℚ
  sensor_width : ℚ
  width : ℚ
  height : ℚ
  positions : Nat → ℚ × ℚ × ℚ
  quaternions : Nat → ℚ × ℚ × ℚ × ℚ
  rgb_video : Nat → RGBImg
  depth_video : Nat → DepthImg
  target_points : Nat → Nat → ℚ × ℚ
  occluded : Nat → Nat → Bool

/-- `KubricSequence.intrinsics`: the stored focal length is doubled, then
`f_x = focal_length / sensor_width * (input_size_x / 2)`,
`f_y = f_x * input_size_x / input_size_y`, principal point at the image
centre. -/
def KubricSequence.intrinsics (s : KubricSequence) : Intrinsics :=
  let focal_length := s.focal_length * 2
  let input_size_x := s.width
  let input_size_y := s.height
  let f_x := focal_length / s.sensor_width * (input_size_x / 2)
  let f_y := f_x * input_size_x / input_size_y
  { fx := f_x, fy := f_y, cx := input_size_x / 2, cy := input_size_y / 2 }

/-- `KubricSequence.__len__`: `num_frames - 1` (integer arithmetic, as in
Python). -/
def KubricSequence.len (s : KubricSequence) : ℤ :=
  (s.num_frames : ℤ) - 1

/-- The frame sample dict returned by `KubricSequence.__getitem__`. -/
structure FrameSample where
  pose : SE3
  pointcloud : PointCloud
  particles : ParticleFrame
  rgb : RGBImg

/-- View a list of 2-D coordinates as an `(N, 2)` numpy query array. -/
def queryArrOfList (ps : List (ℚ × ℚ)) : QueryArr :=
  { n := ps.length, cols := 2,
    data := fun k j =>
      let p := ps.getD k (0, 0)
      if j = 0 then p.1 else p.2 }

/-- numpy masked assignment `out = np.zeros(..); out[~mask] = vals`: the
`k`-th unoccluded slot receives the `k`-th value, occluded slots keep the
zero vector.  (numpy would reject a length mismatch; the caller's counts
always agree, and the short-`vals` case pads with zeros.) -/
def scatterUnoccluded : List Bool → List V3 → List V3
  | [], _ => []
  | true :: occ, pts => (0, 0, 0) :: scatterUnoccluded occ pts
  | false :: occ, [] => (0, 0, 0) :: scatterUnoccluded occ []
  | false :: occ, p :: pts => p :: scatterUnoccluded occ pts

/-- The frame actually read for a Python index `idx` within
`[-num_frames, num_frames)`: negative indices wrap, as numpy indexing
does. -/
def frameIndex (s : KubricSequence) (idx : ℤ) : Nat :=
  (if idx < 0 then idx + s.num_frames else idx).toNat

/-- The nearest-mode resolved depth of particle `k` at frame `i`, exactly
as the sampler resolves it: round both image coordinates half-to-even,
then look the rounded point up in the frame's depth grid (first query
column is the column coordinate, second the row coordinate). -/
def resolvedDepth (s : KubricSequence) (i k : Nat) : FVal :=
  gridInterpLinear (s.depth_video i).H (s.depth_video i).W
    (fun a b => (s.depth_video i).data a b 0)
    ((roundHalfEven (s.target_points k i).2 : ℤ) : ℚ)
    ((roundHalfEven (s.target_points k i).1 : ℤ) : ℚ)

/-- The unoccluded particles' 2-D coordinates at frame `i`, in particle
order (`target_points[~is_occluded]` in the source). -/
def unoccludedQueries (s : KubricSequence) (i : Nat) : List (ℚ × ℚ) :=
  ((List.range s.num_particles).filter (fun k => !(s.occluded k i))).map
    (fun k => s.target_points k i)

/-- The nearest-mode resolved depths of the unoccluded particles at frame
`i`, in particle order: what the sampler's resolver call returns on
well-shaped data. -/
def unoccludedDepths (s : KubricSequence) (i : Nat) : List FVal :=
  ((List.range s.num_particles).filter (fun k => !(s.occluded k i))).map
    (fun k => resolvedDepth s i k)

/-- `KubricSequence.__getitem__`: look up the frame-`idx` tensors (numpy
raises `IndexError` outside `[-num_frames, num_frames)`; a negative index
wraps), resolve depth at the unoccluded particles' image coordinates,
run the two `assert`s, and only then build pose, point cloud and particle
frame.  Failures are returned as `Except.error` before any of those output
values is constructed. -/
def KubricSequence.getitem (s : KubricSequence) (idx : ℤ) :
    Except String FrameSample :=
  if idx < -(s.num_frames : ℤ) ∨ (s.num_frames : ℤ) ≤ idx then
    .error "IndexError: index out of range"
  else
    let i : Nat := frameIndex s idx
    let rgb := s.rgb_video i
    let depth := s.depth_video i
    let position := s.positions i
    let quaternion := s.quaternions i
    let is_occluded : List Bool :=
      (List.range s.num_particles).map (fun k => s.occluded k i)
    let unoccluded_target_points : List (ℚ × ℚ) := unoccludedQueries s i
    match image_space_to_depth (queryArrOfList unoccluded_target_points)
        depth "nearest" with
    | .error e => .error e
    | .ok unoccluded_target_depths =>
      if unoccluded_target_depths.length ≠ unoccluded_target_points.length
      then
        .error "target_depths and unoccluded_particle_positions have different lengths"
      else if ¬ (unoccluded_target_depths.all FVal.isFinite) then
        .error "target_depths contains NaNs"
      else
        let pose := SE3.from_rot_w_x_y_z_translation_x_y_z
          quaternion.1 quaternion.2.1 quaternion.2.2.1 quaternion.2.2.2
          position.1 position.2.1 position.2.2
        let pointcloud := PointCloud.from_field_of_view_depth_image
          depth.H depth.W (fun a b => depth.data a b 0) s.intrinsics
        let unoccluded_target_points_3d :=
          PointCloud.from_field_of_view_points_and_depth
            unoccluded_target_points unoccluded_target_depths
            (depth.H, depth.W) s.intrinsics
        let target_points_3d :=
          scatterUnoccluded is_occluded unoccluded_target_points_3d.points
        let particle_frame := ParticleFrame.mk target_points_3d is_occluded
        .ok { pose := pose, pointcloud := pointcloud,
              particles := particle_frame, rgb := rgb }

/-- A tiny but fully valid two-frame sequence: one particle, occluded in
every frame, constant 2×2 depth `1`, 2×2 metadata, unit camera data. -/
def sampleSeq : KubricSequence where
  num_frames := 2
  num_particles := 1
  focal_length := 1
  sensor_width := 1
  width := 2
  height := 2
  positions := fun _ => (0, 0, 0)
  quaternions := fun _ => (1, 0, 0, 0)
  rgb_video := fun _ => ⟨fun _ _ _ => 0⟩
  depth_video := fun _ => ⟨2, 2, 1, fun _ _ _ => 1⟩
  target_points := fun _ _ => (0, 0)
  occluded := fun _ _ => true

/-- The frame sample `sampleSeq.getitem` produces at any in-range frame:
identity pose at the origin, the four unprojected depth-`1` pixels, and
the single occluded particle at the zero vector. -/
def sampleOut : FrameSample where
  pose := ⟨1, 0, 0, 0, 0, 0, 0⟩
  pointcloud := ⟨[(-(1/2), -(1/2), 1), (0, -(1/2), 1),
                  (-(1/2), 0, 1), (0, 0, 1)]⟩
  particles := ⟨[(0, 0, 0)], [true]⟩
  rgb := ⟨fun _ _ _ => 0⟩

/-- A one-frame sequence whose single particle is flagged unoccluded but
sits far off-frame at `(-100, -100)`: its resolved depth is the `nan`
fill value, so `getitem` must hit the finiteness assertion. -/
def seqErr : KubricSequence where
  num_frames := 1
  num_particles := 1
  focal_length := 1
  sensor_width := 1
  width := 64
  height := 64
  positions := fun _ => (0, 0, 0)
  quaternions := fun _ => (1, 0, 0, 0)
  rgb_video := fun _ => ⟨fun _ _ _ => 0⟩
  depth_video := fun _ => ⟨64, 64, 1, fun _ _ _ => 3⟩
  target_points := fun _ _ => (-100, -100)
  occluded := fun _ _ => false

/-- A query array of shape `(1, 3)` — one more column than allowed. -/
def qCols3 : QueryArr := ⟨1, 3, fun _ _ => 0⟩

/-- A query array of shape `(1, 2)` holding the origin. -/
def qZero : QueryArr := ⟨1, 2, fun _ _ => 0⟩

/-- A well-formed constant 2×2 single-channel depth map. -/
def dUnit : DepthImg := ⟨2, 2, 1, fun _ _ _ => 1⟩

/-- A 2×2 depth map with two channels — one more than allowed. -/
def dTwoChan : DepthImg := ⟨2, 2, 2, fun _ _ _ => 1⟩

/-- A 2×3 single-channel depth map with pairwise distinct entries
`1 + 3*row + col`. -/
def dGrid : DepthImg := ⟨2, 3, 1, fun i j _ => 1 + 3 * (i : ℚ) + (j : ℚ)⟩

/-- One query at the exact integer pixel `(x, y) = (2, 1)`. -/
def qInt21 : QueryArr := ⟨1, 2, fun _ j => if j = 0 then 2 else 1⟩

/-- One query at the exact integer pixel `(x, y) = (5, 1)` — the column
coordinate is off the right edge of `dGrid`. -/
def qInt51 : QueryArr := ⟨1, 2, fun _ j => if j = 0 then 5 else 1⟩

/-- A 3×1 single-channel depth map with distinct entries `row + 5`. -/
def dCol : DepthImg := ⟨3, 1, 1, fun i _ _ => (i : ℚ) + 5⟩

/-- One query at `(x, y) = (0.5, 1.5)` — both coordinates exactly halfway
between grid cells. -/
def qHalf : QueryArr := ⟨1, 2, fun _ j => if j = 0 then 1 / 2 else 3 / 2⟩

/-- One query at `(x, y) = (-0.4, 0)`: the column coordinate lies outside
the grid, but within rounding distance of column `0`. -/
def qNeg : QueryArr := ⟨1, 2, fun _ j => if j = 0 then -(2 / 5) else 0⟩

/-- One query at `(-100, -100)`, far outside any small grid. -/
def qFar : QueryArr := ⟨1, 2, fun _ _ => -100⟩

/-- A constant 64×64 single-channel depth map. -/
def dBig : DepthImg := ⟨64, 64, 1, fun _ _ _ => 3⟩

/-- `Rat.floor` agrees with the mathematical floor `⌊⌋`. -/
theorem ratFloor_eq_floor (q : ℚ) : Rat.floor q = ⌊q⌋ :=
  (Rat.floor_def' q).trans Rat.floor_def.symm

/-- Indexing a mapped range: the `k`-th entry is `f k`. -/
theorem getD_map_range {α : Type} (f : Nat → α) (d : α) (n k : Nat)
    (hk : k < n) : ((List.range n).map f).getD k d = f k := by
  simp [List.getD_eq_getElem?_getD, List.getElem?_map, List.getElem?_range, hk]

/-- `np.round` is the identity on integers. -/
theorem roundHalfEven_intCast (z : ℤ) : roundHalfEven (z : ℚ) = z := by
  norm_num [roundHalfEven, ratFloor_eq_floor]

/-- `np.round` sends `z + 1/2` to the even endpoint of `{z, z + 1}`. -/
theorem roundHalfEven_int_add_half (z : ℤ) :
    roundHalfEven ((z : ℚ) + 1 / 2) = if Even z then z else z + 1 := by
  have hfl : Rat.floor ((z : ℚ) + 1 / 2) = z := by
    rw [ratFloor_eq_floor]
    rw [show ((z : ℚ) + 1 / 2) = 1 / 2 + (z : ℚ) by ring, Int.floor_add_int]
    norm_num
  have hr : (z : ℚ) + 1 / 2 - (z : ℤ) = 1 / 2 := by ring
  simp only [roundHalfEven]
  rw [hfl, hr, if_neg (by norm_num), if_neg (by norm_num)]
  simp [Int.even_iff]

/-- Corner evaluation of the bilinear blend: when each axis weight is `0`
or `1`, the blend collapses to the corresponding grid value. -/
theorem bilinear_corner (g : Nat → Nat → ℚ) (i j it jt : Nat) (t s : ℚ)
    (ht : (it = i ∧ t = 0) ∨ (it = i + 1 ∧ t = 1))
    (hs : (jt = j ∧ s = 0) ∨ (jt = j + 1 ∧ s = 1)) :
    (1 - t) * (1 - s) * g i j + (1 - t) * s * g i (j + 1)
      + t * (1 - s) * g (i + 1) j + t * s * g (i + 1) (j + 1) = g it jt := by
  rcases ht with ⟨rfl, rfl⟩ | ⟨rfl, rfl⟩ <;>
    rcases hs with ⟨rfl, rfl⟩ | ⟨rfl, rfl⟩ <;> norm_num

/-- In-bounds axis analysis of the interpolator's cell choice: for an
integer coordinate `a` on an axis of `n` grid points, the chosen cell
index `min a.toNat (n - 2)` together with its fractional offset either
hits `a` with offset `0`, or is the cell just below `a` with offset `1`
(the clipped upper-boundary case). -/
theorem axis_corner (n : Nat) (a : ℤ) (h0 : 0 ≤ a) (h1 : a ≤ (n : ℤ) - 1) :
    (min a.toNat (n - 2) = a.toNat
        ∧ (a : ℚ) - (min a.toNat (n - 2) : ℕ) = 0) ∨
    (min a.toNat (n - 2) + 1 = a.toNat
        ∧ (a : ℚ) - (min a.toNat (n - 2) : ℕ) = 1) := by
  have hcast : ((a.toNat : ℕ) : ℚ) = (a : ℚ) := by
    rw [show ((a.toNat : ℕ) : ℚ) = ((a.toNat : ℤ) : ℚ) by push_cast; ring,
      Int.toNat_of_nonneg h0]
  rcases le_or_lt a.toNat (n - 2) with hle | hlt
  · left
    constructor
    · exact min_eq_left hle
    · rw [min_eq_left hle, hcast]; ring
  · right
    have hn2 : 2 ≤ n := by omega
    have han : a.toNat = n - 1 := by omega
    have hmin : min a.toNat (n - 2) = n - 2 := min_eq_right (le_of_lt hlt)
    constructor
    · omega
    · rw [hmin]
      have h2 : ((n - 2 : ℕ) : ℚ) = (n : ℚ) - 2 := by
        push_cast [Nat.cast_sub hn2]; ring
      have ha : (a : ℚ) = (n : ℚ) - 1 := by
        have : a = (n : ℤ) - 1 := by omega
        rw [this]; push_cast; ring
      rw [h2, ha]; ring

/-- The grid interpolator at an exact integer query point: the stored grid
value when the point is inside `[0, H-1] × [0, W-1]`, the `nan` fill
value otherwise. -/
theorem gridInterpLinear_intCast (H W : Nat) (g : Nat → Nat → ℚ)
    (a b : ℤ) :
    gridInterpLinear H W g (a : ℚ) (b : ℚ) =
      if 0 ≤ a ∧ a ≤ (H : ℤ) - 1 ∧ 0 ≤ b ∧ b ≤ (W : ℤ) - 1
      then FVal.fin (g a.toNat b.toNat) else FVal.nan := by
  by_cases hin : 0 ≤ a ∧ a ≤ (H : ℤ) - 1 ∧ 0 ≤ b ∧ b ≤ (W : ℤ) - 1
  · obtain ⟨ha0, haH, hb0, hbW⟩ := hin
    rw [if_pos ⟨ha0, haH, hb0, hbW⟩]
    unfold gridInterpLinear
    rw [if_neg]
    · simp only [ratFloor_eq_floor, Int.floor_intCast]
      refine congrArg FVal.fin ?_
      exact bilinear_corner g (min a.toNat (H - 2)) (min b.toNat (W - 2))
        a.toNat b.toNat _ _
        (by rcases axis_corner H a ha0 haH with ⟨h1, h2⟩ | ⟨h1, h2⟩
            · exact Or.inl ⟨h1.symm, h2⟩
            · exact Or.inr ⟨h1.symm, h2⟩)
        (by rcases axis_corner W b hb0 hbW with ⟨h1, h2⟩ | ⟨h1, h2⟩
            · exact Or.inl ⟨h1.symm, h2⟩
            · exact Or.inr ⟨h1.symm, h2⟩)
    · push_neg
      refine ⟨by exact_mod_cast ha0, ?_, by exact_mod_cast hb0, ?_⟩
      · have : ((a : ℚ)) ≤ ((H : ℤ) - 1 : ℤ) := by exact_mod_cast haH
        push_cast at this ⊢; linarith
      · have : ((b : ℚ)) ≤ ((W : ℤ) - 1 : ℤ) := by exact_mod_cast hbW
        push_cast at this ⊢; linarith
  · rw [if_neg hin]
    unfold gridInterpLinear
    rw [if_pos]
    by_contra hg
    push_neg at hg
    obtain ⟨h1, h2, h3, h4⟩ := hg
    refine hin ⟨by exact_mod_cast h1, ?_, by exact_mod_cast h3, ?_⟩
    · have : (a : ℚ) ≤ (((H : ℤ) - 1 : ℤ) : ℚ) := by push_cast; linarith
      exact_mod_cast this
    · have : (b : ℚ) ≤ (((W : ℤ) - 1 : ℤ) : ℚ) := by push_cast; linarith
      exact_mod_cast this

/-- In `"nearest"` mode the resolver succeeds on well-shaped inputs and
returns, per query, the interpolator evaluated at the rounded
`(y, x)` point. -/
theorem image_space_to_depth_nearest_eq (q : QueryArr) (d : DepthImg)
    (hcols : q.cols = 2) (hC : d.C = 1) :
    image_space_to_depth q d "nearest" =
      .ok ((List.range q.n).map (fun k =>
        gridInterpLinear d.H d.W (fun i j => d.data i j 0)
          ((roundHalfEven (q.data k 1) : ℤ) : ℚ)
          ((roundHalfEven (q.data k 0) : ℤ) : ℚ))) := by
  simp [image_space_to_depth, hcols, hC]

/-- The scattered particle array has one slot per particle. -/
theorem scatterUnoccluded_length (occ : List Bool) (pts : List V3) :
    (scatterUnoccluded occ pts).length = occ.length := by
  induction occ generalizing pts with
  | nil => rfl
  | cons b rest ih =>
    cases b <;> cases pts <;> simp [scatterUnoccluded, ih]

/-- Occluded slots of the scattered particle array hold the zero vector,
whatever the unoccluded values are. -/
theorem scatterUnoccluded_getD_true (occ : List Bool) (pts : List V3)
    (k : Nat) (h : occ.getD k false = true) :
    (scatterUnoccluded occ pts).getD k (1, 1, 1) = (0, 0, 0) := by
  induction occ generalizing pts k with
  | nil => simp at h
  | cons b rest ih =>
    cases k with
    | zero =>
      cases b with
      | false => simp at h
      | true => cases pts <;> rfl
    | succ m =>
      simp only [List.getD_cons_succ] at h
      cases b with
      | true => simpa [scatterUnoccluded] using ih pts m h
      | false =>
        cases pts with
        | nil => simpa [scatterUnoccluded] using ih [] m h
        | cons p ps => simpa [scatterUnoccluded] using ih ps m h

/-- Inside `getitem`, the resolver call on the unoccluded queries of frame
`i` succeeds and returns exactly `unoccludedDepths s i`. -/
theorem image_space_to_depth_unoccluded (s : KubricSequence) (i : Nat)
    (hC : (s.depth_video i).C = 1) :
    image_space_to_depth (queryArrOfList (unoccludedQueries s i))
      (s.depth_video i) "nearest" = .ok (unoccludedDepths s i) := by
  rw [image_space_to_depth_nearest_eq _ _ rfl hC]
  refine congrArg Except.ok ?_
  apply List.ext_getElem
  · simp [queryArrOfList, unoccludedDepths, unoccludedQueries]
  · intro k h1 h2
    have hk : k < (unoccludedQueries s i).length := by
      simpa [queryArrOfList] using h1
    have hq : (unoccludedQueries s i).getD k (0, 0) =
        (unoccludedQueries s i).get ⟨k, hk⟩ := by
      rw [List.getD_eq_getElem?_getD, List.getElem?_eq_getElem hk]
      rfl
    simp only [List.getElem_map, List.getElem_range, queryArrOfList,
      unoccludedDepths]
    rw [hq]
    simp only [unoccludedQueries, List.get_eq_getElem, List.getElem_map]
    rfl

/-- C2: for every sequence with positive `focal_length`, `sensor_width`,
`width` and `height` metadata, the intrinsics are exactly
`fx = (2*focal_length/sensor_width)*(width/2)`, `fy = fx*(width/height)`,
`cx = width/2` and `cy = height/2`. -/
theorem intrinsics_formula (s : KubricSequence)
    (hfl : 0 < s.focal_length) (hsw : 0 < s.sensor_width)
    (hw : 0 < s.width) (hh : 0 < s.height) :
    s.intrinsics.fx = 2 * s.focal_length / s.sensor_width * (s.width / 2)
    ∧ s.intrinsics.fy = s.intrinsics.fx * (s.width / s.height)
    ∧ s.intrinsics.cx = s.width / 2
    ∧ s.intrinsics.cy = s.height / 2 := by
  refine ⟨?_, ?_, rfl, rfl⟩
  · simp only [KubricSequence.intrinsics]
    ring
  · simp only [KubricSequence.intrinsics]
    ring

/-- C2 witness: the formulas hold on the concrete sequence `sampleSeq`. -/
theorem intrinsics_formula_witness :
    (0 : ℚ) < sampleSeq.focal_length ∧
    (sampleSeq.intrinsics.fx
        = 2 * sampleSeq.focal_length / sampleSeq.sensor_width
          * (sampleSeq.width / 2)
      ∧ sampleSeq.intrinsics.fy
        = sampleSeq.intrinsics.fx * (sampleSeq.width / sampleSeq.height)
      ∧ sampleSeq.intrinsics.cx = sampleSeq.width / 2
      ∧ sampleSeq.intrinsics.cy = sampleSeq.height / 2) :=
  ⟨by norm_num [sampleSeq],
   intrinsics_formula sampleSeq (by norm_num [sampleSeq])
     (by norm_num [sampleSeq]) (by norm_num [sampleSeq])
     (by norm_num [sampleSeq])⟩

/-- C6: a sequence's `len` is exactly `num_frames - 1` (in integer
arithmetic, exactly as Python computes it). -/
theorem len_eq_num_frames_sub_one (s : KubricSequence) :
    s.len = (s.num_frames : ℤ) - 1 :=
  rfl

/-- C8: the resolver rejects a query array without exactly 2 columns with
a descriptive message naming the offending shape, and (when the query
shape is fine) rejects a depth map without exactly 1 channel likewise; in
both cases the error is produced instead of any interpolation result. -/
theorem image_space_to_depth_shape_validation (q : QueryArr) (d : DepthImg)
    (t : String) :
    (q.cols ≠ 2 → image_space_to_depth q d t =
      .error ("image_space_positions must have shape (N, 2), got ("
        ++ toString q.n ++ ", " ++ toString q.cols ++ ")")) ∧
    (q.cols = 2 → d.C ≠ 1 → image_space_to_depth q d t =
      .error ("depth_image must have shape (H, W, 1), got ("
        ++ toString d.H ++ ", " ++ toString d.W ++ ", "
        ++ toString d.C ++ ")")) := by
  constructor
  · intro h
    simp [image_space_to_depth, h]
  · intro h h2
    simp [image_space_to_depth, h, h2]

/-- C8 witness: a `(1, 3)` query array is rejected with the shape message,
and a two-channel depth map is rejected with the channel message. -/
theorem image_space_to_depth_shape_validation_witness :
    (qCols3.cols ≠ 2 ∧ image_space_to_depth qCols3 dUnit "nearest" =
      .error ("image_space_positions must have shape (N, 2), got ("
        ++ toString qCols3.n ++ ", " ++ toString qCols3.cols ++ ")")) ∧
    (dTwoChan.C ≠ 1 ∧ image_space_to_depth qZero dTwoChan "nearest" =
      .error ("depth_image must have shape (H, W, 1), got ("
        ++ toString dTwoChan.H ++ ", " ++ toString dTwoChan.W ++ ", "
        ++ toString dTwoChan.C ++ ")")) :=
  ⟨⟨by decide,
    (image_space_to_depth_shape_validation qCols3 dUnit "nearest").1
      (by decide)⟩,
   ⟨by decide,
    (image_space_to_depth_shape_validation qZero dTwoChan "nearest").2
      rfl (by decide)⟩⟩

/-- C3: a `"nearest"`-mode query at an exact in-bounds integer pixel
`(x, y)` returns exactly the depth value stored at that pixel of the
depth map. -/
theorem nearest_integer_pixel_exact (d : DepthImg) (hC : d.C = 1)
    (q : QueryArr) (hcols : q.cols = 2) (k : Nat) (hk : k < q.n)
    (x y : ℕ) (hx : q.data k 0 = (x : ℚ)) (hy : q.data k 1 = (y : ℚ))
    (hxW : x < d.W) (hyH : y < d.H) :
    ∃ l, image_space_to_depth q d "nearest" = .ok l
      ∧ l.getD k FVal.nan = FVal.fin (d.data y x 0) := by
  refine ⟨_, image_space_to_depth_nearest_eq q d hcols hC, ?_⟩
  rw [getD_map_range _ _ _ _ hk, hx, hy,
      show ((y : ℕ) : ℚ) = (((y : ℕ) : ℤ) : ℚ) by push_cast; ring,
      show ((x : ℕ) : ℚ) = (((x : ℕ) : ℤ) : ℚ) by push_cast; ring,
      roundHalfEven_intCast, roundHalfEven_intCast,
      gridInterpLinear_intCast, if_pos (by omega)]
  simp

/-- C3 witness: on the 2×3 map `dGrid`, the integer query `(2, 1)`
returns the stored entry of row 1, column 2. -/
theorem nearest_integer_pixel_exact_witness :
    ∃ l, image_space_to_depth qInt21 dGrid "nearest" = .ok l
      ∧ l.getD 0 FVal.nan = FVal.fin (dGrid.data 1 2 0) :=
  nearest_integer_pixel_exact dGrid rfl qInt21 rfl 0 (by norm_num [qInt21])
    2 1 (by norm_num [qInt21]) (by norm_num [qInt21])
    (by norm_num [dGrid]) (by norm_num [dGrid])

/-- C9: the first query column is the column (width-axis) coordinate and
the second the row (height-axis) coordinate: an integer query `(x, y)`
resolves to the entry at row `y`, column `x`, and is in bounds exactly
when `0 ≤ x ≤ W-1` and `0 ≤ y ≤ H-1` (outside, the `nan` fill value is
returned). -/
theorem nearest_xy_orientation (d : DepthImg) (hC : d.C = 1)
    (q : QueryArr) (hcols : q.cols = 2) (k : Nat) (hk : k < q.n)
    (x y : ℤ) (hx : q.data k 0 = (x : ℚ)) (hy : q.data k 1 = (y : ℚ)) :
    ∃ l, image_space_to_depth q d "nearest" = .ok l
      ∧ l.getD k FVal.nan =
        (if 0 ≤ x ∧ x ≤ (d.W : ℤ) - 1 ∧ 0 ≤ y ∧ y ≤ (d.H : ℤ) - 1
         then FVal.fin (d.data y.toNat x.toNat 0) else FVal.nan) := by
  refine ⟨_, image_space_to_depth_nearest_eq q d hcols hC, ?_⟩
  rw [getD_map_range _ _ _ _ hk, hx, hy, roundHalfEven_intCast,
      roundHalfEven_intCast, gridInterpLinear_intCast]
  by_cases hb : 0 ≤ y ∧ y ≤ (d.H : ℤ) - 1 ∧ 0 ≤ x ∧ x ≤ (d.W : ℤ) - 1
  · rw [if_pos hb, if_pos (by tauto)]
  · rw [if_neg hb, if_neg (by tauto)]

/-- C9 witness: on `dGrid` (width 3), the integer query `(5, 1)` has its
column coordinate past the right edge and resolves to the `nan`
sentinel. -/
theorem nearest_xy_orientation_witness :
    ∃ l, image_space_to_depth qInt51 dGrid "nearest" = .ok l
      ∧ l.getD 0 FVal.nan = FVal.nan := by
  obtain ⟨l, h1, h2⟩ := nearest_xy_orientation dGrid rfl qInt51 rfl 0
    (by norm_num [qInt51]) 5 1 (by norm_num [qInt51]) (by norm_num [qInt51])
  refine ⟨l, h1, ?_⟩
  rw [h2, if_neg (by norm_num [dGrid])]

/-- C10: a `"nearest"`-mode query coordinate exactly halfway between two
integer cells is rounded half-to-even on each axis: the resolver looks up
the grid at the even-rounded cell, not at the always-rounded-up one. -/
theorem nearest_halfway_rounds_to_even (d : DepthImg) (hC : d.C = 1)
    (q : QueryArr) (hcols : q.cols = 2) (k : Nat) (hk : k < q.n)
    (nx ny : ℤ) (hx : q.data k 0 = (nx : ℚ) + 1 / 2)
    (hy : q.data k 1 = (ny : ℚ) + 1 / 2) :
    ∃ l, image_space_to_depth q d "nearest" = .ok l
      ∧ l.getD k FVal.nan =
        gridInterpLinear d.H d.W (fun i j => d.data i j 0)
          (((if Even ny then ny else ny + 1) : ℤ) : ℚ)
          (((if Even nx then nx else nx + 1) : ℤ) : ℚ) := by
  refine ⟨_, image_space_to_depth_nearest_eq q d hcols hC, ?_⟩
  rw [getD_map_range _ _ _ _ hk, hx, hy, roundHalfEven_int_add_half,
      roundHalfEven_int_add_half]

/-- C10 witness: on the 3×1 map `dCol`, the query `(0.5, 1.5)` resolves
column `0.5 → 0` and row `1.5 → 2` (not row 2 → no: not `1`), returning
the entry stored at row 2, i.e. `7`. -/
theorem nearest_halfway_rounds_to_even_witness :
    ∃ l, image_space_to_depth qHalf dCol "nearest" = .ok l
      ∧ l.getD 0 FVal.nan = FVal.fin 7 := by
  obtain ⟨l, h1, h2⟩ := nearest_halfway_rounds_to_even dCol rfl qHalf rfl 0
    (by norm_num [qHalf]) 0 1 (by norm_num [qHalf]) (by norm_num [qHalf])
  refine ⟨l, h1, ?_⟩
  rw [h2, if_neg (by norm_num [Int.even_iff]),
      if_pos (by norm_num [Int.even_iff]),
      gridInterpLinear_intCast, if_pos (by norm_num [dCol])]
  rw [show ((1 : ℤ) + 1).toNat = 2 from rfl, show ((0 : ℤ)).toNat = 0 from rfl]
  norm_num [dCol]

/-- C4 counterexample: on `dGrid`, the query `(-0.4, 0)` has its column
coordinate outside the pixel grid, yet `"nearest"` mode rounds it back
onto column 0 and returns the finite stored corner value `1`, not the
not-a-number sentinel the claim requires for every out-of-bounds query. -/
theorem out_of_bounds_query_counterexample :
    qNeg.data 0 0 < 0 ∧
    image_space_to_depth qNeg dGrid "nearest" = .ok [FVal.fin 1] ∧
    FVal.fin (1 : ℚ) ≠ FVal.nan := by
  refine ⟨by norm_num [qNeg], ?_, by simp⟩
  rw [image_space_to_depth_nearest_eq qNeg dGrid rfl rfl,
      show List.range qNeg.n = [0] from rfl, List.map_cons, List.map_nil]
  refine congrArg Except.ok (congrArg (fun v => [v]) ?_)
  rw [show qNeg.data 0 1 = ((0 : ℤ) : ℚ) from by norm_num [qNeg],
      roundHalfEven_intCast,
      show qNeg.data 0 0 = -(2 / 5 : ℚ) from by norm_num [qNeg]]
  have h40 : roundHalfEven (-(2 / 5 : ℚ)) = 0 := by
    norm_num [roundHalfEven, ratFloor_eq_floor, Int.floor_eq_iff]
  rw [h40, gridInterpLinear_intCast, if_pos (by norm_num [dGrid])]
  norm_num [dGrid]

/-- C4 amended: in `"nearest"` mode the query is rounded before the bounds
check, so it is the queries whose *rounded* coordinates fall outside the
grid that return the `nan` sentinel (still without raising); queries
within rounding distance of the boundary return the boundary pixel's
stored depth instead. -/
theorem nearest_rounded_out_of_bounds_nan (d : DepthImg) (hC : d.C = 1)
    (q : QueryArr) (hcols : q.cols = 2) (k : Nat) (hk : k < q.n)
    (hout : roundHalfEven (q.data k 0) < 0
      ∨ (d.W : ℤ) - 1 < roundHalfEven (q.data k 0)
      ∨ roundHalfEven (q.data k 1) < 0
      ∨ (d.H : ℤ) - 1 < roundHalfEven (q.data k 1)) :
    ∃ l, image_space_to_depth q d "nearest" = .ok l
      ∧ l.getD k FVal.nan = FVal.nan := by
  refine ⟨_, image_space_to_depth_nearest_eq q d hcols hC, ?_⟩
  rw [getD_map_range _ _ _ _ hk, gridInterpLinear_intCast,
      if_neg (by omega)]

/-- C4 amended witness: the far-out query `(-100, -100)` on the 64×64 map
`dBig` yields the `nan` sentinel without an error. -/
theorem nearest_rounded_out_of_bounds_nan_witness :
    ∃ l, image_space_to_depth qFar dBig "nearest" = .ok l
      ∧ l.getD 0 FVal.nan = FVal.nan :=
  nearest_rounded_out_of_bounds_nan dBig rfl qFar rfl 0
    (by norm_num [qFar])
    (Or.inl (by rw [show qFar.data 0 0 = ((-100 : ℤ) : ℚ) from by
        norm_num [qFar], roundHalfEven_intCast]; norm_num))

/-- Evaluating `getitem` on the concrete sequence `sampleSeq` at frame
index 1 (the last frame): every check passes and the full frame sample
comes out. -/
theorem sampleSeq_getitem_eq : sampleSeq.getitem 1 = .ok sampleOut := by
  norm_num [KubricSequence.getitem, frameIndex, unoccludedQueries,
    image_space_to_depth, queryArrOfList, KubricSequence.intrinsics,
    PointCloud.from_field_of_view_depth_image,
    PointCloud.from_field_of_view_points_and_depth, unproject,
    SE3.from_rot_w_x_y_z_translation_x_y_z, scatterUnoccluded,
    sampleSeq, sampleOut, List.range_succ]

/-- C7 counterexample: `sampleSeq` is a valid two-frame sequence with
`len = 1`, yet requesting the frame sample at index `len` does not fail —
it returns the full frame sample `sampleOut`. -/
theorem getitem_at_len_counterexample :
    sampleSeq.len = 1 ∧ sampleSeq.getitem sampleSeq.len = .ok sampleOut := by
  have hlen : sampleSeq.len = 1 := by norm_num [KubricSequence.len, sampleSeq]
  exact ⟨hlen, by rw [hlen]; exact sampleSeq_getitem_eq⟩

/-- C7 amended: requesting a frame sample at any index at or beyond
`num_frames` (that is, strictly beyond `len = num_frames - 1`), or below
`-num_frames`, fails with the index error rather than returning a frame
sample; `len` itself is still a readable index. -/
theorem getitem_out_of_range_error (s : KubricSequence) (idx : ℤ)
    (h : (s.num_frames : ℤ) ≤ idx ∨ idx < -(s.num_frames : ℤ)) :
    s.getitem idx = .error "IndexError: index out of range" := by
  simp only [KubricSequence.getitem]
  rw [if_pos (Or.symm h)]

/-- C7 amended witness: index 2 on the two-frame `sampleSeq` fails. -/
theorem getitem_out_of_range_error_witness :
    ((sampleSeq.num_frames : ℤ) ≤ 2 ∨ (2 : ℤ) < -(sampleSeq.num_frames : ℤ))
    ∧ sampleSeq.getitem 2 = .error "IndexError: index out of range" :=
  ⟨Or.inl (by norm_num [sampleSeq]),
   getitem_out_of_range_error sampleSeq 2 (Or.inl (by norm_num [sampleSeq]))⟩

/-- C1: in every frame sample `getitem` returns, each particle whose
occlusion flag at the sampled frame is `true` has exactly the zero vector
in its 3-D slot and occlusion flag `true` in the sample — the slot is a
definite zero value, never left undefined. -/
theorem occluded_particles_zero (s : KubricSequence) (idx : ℤ)
    (sample : FrameSample) (h : s.getitem idx = .ok sample) (k : Nat)
    (hk : k < s.num_particles)
    (hocc : s.occluded k (frameIndex s idx) = true) :
    sample.particles.points.getD k (1, 1, 1) = (0, 0, 0)
    ∧ sample.particles.occluded.getD k false = true := by
  simp only [KubricSequence.getitem] at h
  split at h
  · exact absurd h (by simp)
  · split at h
    · exact absurd h (by simp)
    · split at h
      · exact absurd h (by simp)
      · split at h
        · exact absurd h (by simp)
        · rw [Except.ok.injEq] at h
          subst h
          constructor
          · exact scatterUnoccluded_getD_true _ _ k
              (by rw [getD_map_range _ _ _ _ hk]; exact hocc)
          · rw [getD_map_range _ _ _ _ hk]
            exact hocc

/-- C1 witness: the occluded particle of `sampleSeq`'s frame-1 sample sits
at the zero vector with its flag set. -/
theorem occluded_particles_zero_witness :
    sampleSeq.occluded 0 (frameIndex sampleSeq 1) = true ∧
    (sampleOut.particles.points.getD 0 (1, 1, 1) = (0, 0, 0)
      ∧ sampleOut.particles.occluded.getD 0 false = true) :=
  ⟨rfl, occluded_particles_zero sampleSeq 1 sampleOut sampleSeq_getitem_eq 0
    (by norm_num [sampleSeq]) rfl⟩

/-- For a valid frame request whose depths all resolve finite, `getitem`
succeeds with some frame sample. -/
theorem getitem_ok_of_finite (s : KubricSequence) (idx : ℤ)
    (hlow : -(s.num_frames : ℤ) ≤ idx) (hhigh : idx < (s.num_frames : ℤ))
    (hC : (s.depth_video (frameIndex s idx)).C = 1)
    (hfin : (unoccludedDepths s (frameIndex s idx)).all FVal.isFinite
      = true) :
    ∃ sample, s.getitem idx = .ok sample := by
  have hlen : (unoccludedDepths s (frameIndex s idx)).length
      = (unoccludedQueries s (frameIndex s idx)).length := by
    simp [unoccludedDepths, unoccludedQueries]
  simp only [KubricSequence.getitem]
  rw [if_neg (by omega), image_space_to_depth_unoccluded s _ hC]
  simp [hlen, hfin]

/-- For a valid frame request with a non-finite resolved depth among the
unoccluded particles, `getitem` stops at the finiteness assertion. -/
theorem getitem_error_of_nonfinite (s : KubricSequence) (idx : ℤ)
    (hlow : -(s.num_frames : ℤ) ≤ idx) (hhigh : idx < (s.num_frames : ℤ))
    (hC : (s.depth_video (frameIndex s idx)).C = 1)
    (hfin : (unoccludedDepths s (frameIndex s idx)).all FVal.isFinite
      = false) :
    s.getitem idx = .error "target_depths contains NaNs" := by
  have hlen : (unoccludedDepths s (frameIndex s idx)).length
      = (unoccludedQueries s (frameIndex s idx)).length := by
    simp [unoccludedDepths, unoccludedQueries]
  simp only [KubricSequence.getitem]
  rw [if_neg (by omega), image_space_to_depth_unoccluded s _ hC]
  simp [hlen, hfin]

/-- C5: a valid frame request fails — with the fatal assertion error,
returned before pose, point cloud or particle frame are built — exactly
when some particle flagged unoccluded at that frame resolves to a
non-finite depth, or the resolved-depth count disagrees with the
unoccluded query count (the latter never happens: the resolver returns
one depth per query). -/
theorem getitem_error_iff (s : KubricSequence) (idx : ℤ)
    (hlow : -(s.num_frames : ℤ) ≤ idx) (hhigh : idx < (s.num_frames : ℤ))
    (hC : (s.depth_video (frameIndex s idx)).C = 1) :
    (∃ e, s.getitem idx = .error e) ↔
      ((∃ k, k < s.num_particles
          ∧ s.occluded k (frameIndex s idx) = false
          ∧ (resolvedDepth s (frameIndex s idx) k).isFinite = false)
        ∨ (unoccludedDepths s (frameIndex s idx)).length
            ≠ (unoccludedQueries s (frameIndex s idx)).length) := by
  have hlen : (unoccludedDepths s (frameIndex s idx)).length
      = (unoccludedQueries s (frameIndex s idx)).length := by
    simp [unoccludedDepths, unoccludedQueries]
  constructor
  · rintro ⟨e, he⟩
    by_cases hfin : (unoccludedDepths s (frameIndex s idx)).all
        FVal.isFinite = true
    · obtain ⟨sample, hs⟩ := getitem_ok_of_finite s idx hlow hhigh hC hfin
      rw [hs] at he
      exact absurd he (by simp)
    · left
      have hnall : ¬ ∀ x ∈ unoccludedDepths s (frameIndex s idx),
          FVal.isFinite x = true := by
        intro hall
        exact hfin (List.all_eq_true.mpr hall)
      push_neg at hnall
      obtain ⟨x, hxmem, hxf⟩ := hnall
      have hxf2 : FVal.isFinite x = false := by
        revert hxf
        cases FVal.isFinite x <;> simp
      simp only [unoccludedDepths, List.mem_map, List.mem_filter,
        List.mem_range] at hxmem
      obtain ⟨k, ⟨hkP, hkocc⟩, hres⟩ := hxmem
      refine ⟨k, hkP, ?_, by rw [hres]; exact hxf2⟩
      revert hkocc
      cases s.occluded k (frameIndex s idx) <;> simp
  · rintro (⟨k, hkP, hkocc, hnf⟩ | hne)
    · have hfin : (unoccludedDepths s (frameIndex s idx)).all
          FVal.isFinite = false := by
        cases hall : (unoccludedDepths s (frameIndex s idx)).all
            FVal.isFinite
        · rfl
        · exfalso
          have hmem : resolvedDepth s (frameIndex s idx) k
              ∈ unoccludedDepths s (frameIndex s idx) := by
            simp only [unoccludedDepths, List.mem_map, List.mem_filter,
              List.mem_range]
            exact ⟨k, ⟨hkP, by simp [hkocc]⟩, rfl⟩
          have := List.all_eq_true.mp hall _ hmem
          rw [hnf] at this
          cases this
      exact ⟨_, getitem_error_of_nonfinite s idx hlow hhigh hC hfin⟩
    · exact absurd hlen hne

/-- C5 witness: `seqErr`'s particle is flagged unoccluded but resolves to
the `nan` fill value at `(-100, -100)`, so `getitem` fails. -/
theorem getitem_error_iff_witness :
    ∃ e, seqErr.getitem 0 = .error e := by
  have hr : roundHalfEven (-100 : ℚ) = -100 := by
    rw [show ((-100 : ℚ)) = (((-100 : ℤ)) : ℚ) from by norm_num,
      roundHalfEven_intCast]
  have hnan : resolvedDepth seqErr 0 0 = FVal.nan := by
    show gridInterpLinear 64 64 (fun a b => (seqErr.depth_video 0).data a b 0)
      ((roundHalfEven (-100 : ℚ) : ℤ) : ℚ)
      ((roundHalfEven (-100 : ℚ) : ℤ) : ℚ) = FVal.nan
    rw [hr, gridInterpLinear_intCast, if_neg (by norm_num)]
  refine (getitem_error_iff seqErr 0 (by norm_num [seqErr])
    (by norm_num [seqErr]) rfl).mpr (Or.inl ⟨0, by norm_num [seqErr],
      rfl, ?_⟩)
  rw [show frameIndex seqErr 0 = 0 from rfl, hnan]
  rfl
